import Mathlib

/-!
Verification of the rolling-restart planning core of the repository
(release/rollback): the paginated fetcher (`list_all_pages`), the
timestamp normalizer (`parse_gcp_timestamp`) and the rollout planner
(`generate_steps`), together with the `VersionKey` and `RestartCommand`
value objects.  The implementation modules `common.py`,
`rolling_restart.py` and `steps.py` are not part of the provided
sources (only their unit tests are), so every definition below is
modelled from the specification and cross-checked against the concrete
unit-test scenarios in `common_test.py` and `rolling_restart_test.py`.
-/

/-- Modelled from the spec: `VersionKey` (common.VersionKey, absent from the
provided sources) — immutable pair `(service, version)` identifying a deployed
artifact; equality is structural. -/
structure VersionKey where
  service : String
  version : String
deriving DecidableEq, Repr

/-- Modelled from the spec: `NormalizedTimestamp` — a UTC point in time with
microsecond resolution, as produced by the timestamp normalizer.  Fields are
the numeric components read off the timestamp string. -/
structure Timestamp where
  year : Nat
  month : Nat
  day : Nat
  hour : Nat
  minute : Nat
  second : Nat
  microsecond : Nat
deriving DecidableEq, Repr

/-- Order key of a timestamp: lexicographic packing of its components.
Every component after the year is read from exactly two digits (hence `< 100`),
and the microsecond component from six digits (hence `< 1000000`), so the
packing is injective on parsed values and realizes the chronological order
required by the spec. -/
def Timestamp.key (t : Timestamp) : Nat :=
  (((((t.year * 100 + t.month) * 100 + t.day) * 100 + t.hour) * 100 +
      t.minute) * 100 + t.second) * 1000000 + t.microsecond

/-- Integer-seconds portion of a timestamp: everything except the
fractional-second (microsecond) component. -/
def Timestamp.secondsPart (t : Timestamp) : Nat × Nat × Nat × Nat × Nat × Nat :=
  (t.year, t.month, t.day, t.hour, t.minute, t.second)

/-- Numeric value of a digit character. -/
def digitVal (c : Char) : Nat := c.toNat - 48

/-- Value of a digit string, most significant digit first. -/
def natOfDigits : List Char → Nat → Nat
  | [], acc => acc
  | c :: cs, acc => natOfDigits cs (acc * 10 + digitVal c)

/-- Modelled from the spec: rescaling of the fractional-second digits to
exactly six digits — pad with trailing zeros if fewer than six, truncate
without rounding if more — giving the microsecond component. -/
def rescaleMicros (ds : List Char) : Nat :=
  natOfDigits (ds.take 6 ++ List.replicate (6 - ds.length) '0') 0

/-- Modelled from the spec: the tail of a timestamp string after the seconds
field — either a bare `Z`, or a dot followed by one to nine fractional digits
and `Z`.  Returns the fractional digits (empty when absent). -/
def parseFraction : List Char → Except String (List Char)
  | ['Z'] => Except.ok []
  | '.' :: rest =>
    if rest.dropWhile Char.isDigit = ['Z'] ∧
        1 ≤ (rest.takeWhile Char.isDigit).length ∧
        (rest.takeWhile Char.isDigit).length ≤ 9 then
      Except.ok (rest.takeWhile Char.isDigit)
    else
      Except.error "ParseError"
  | _ => Except.error "ParseError"

/-- Modelled from the spec: `common.parse_gcp_timestamp` (absent from the
provided sources) on the character list of its input — parse a string of shape
`YYYY-MM-DDTHH:MM:SS[.F+]Z` into a microsecond-precision timestamp, rescaling
the fractional component to six digits; any other shape is a `ParseError`. -/
def parseChars : List Char → Except String Timestamp
  | y1 :: y2 :: y3 :: y4 :: c1 :: m1 :: m2 :: c2 :: d1 :: d2 :: c3 ::
      h1 :: h2 :: c4 :: n1 :: n2 :: c5 :: s1 :: s2 :: rest =>
    if (y1.isDigit && y2.isDigit && y3.isDigit && y4.isDigit &&
        m1.isDigit && m2.isDigit && d1.isDigit && d2.isDigit &&
        h1.isDigit && h2.isDigit && n1.isDigit && n2.isDigit &&
        s1.isDigit && s2.isDigit) = true ∧
        c1 = '-' ∧ c2 = '-' ∧ c3 = 'T' ∧ c4 = ':' ∧ c5 = ':' then
      match parseFraction rest with
      | Except.error e => Except.error e
      | Except.ok ds =>
        Except.ok ⟨natOfDigits [y1, y2, y3, y4] 0,
          digitVal m1 * 10 + digitVal m2, digitVal d1 * 10 + digitVal d2,
          digitVal h1 * 10 + digitVal h2, digitVal n1 * 10 + digitVal n2,
          digitVal s1 * 10 + digitVal s2, rescaleMicros ds⟩
    else
      Except.error "ParseError"
  | _ => Except.error "ParseError"

/-- Modelled from the spec: `common.parse_gcp_timestamp` (absent from the
provided sources). -/
def parse_gcp_timestamp (s : String) : Except String Timestamp :=
  parseChars s.data

/-- Character of a digit value. -/
def digitChar (n : Nat) : Char := Char.ofNat (48 + n)

/-- Two-digit rendering of a number below 100. -/
def twoChars (n : Nat) : List Char := [digitChar (n / 10), digitChar (n % 10)]

/-- Four-digit rendering of a number below 10000. -/
def fourChars (n : Nat) : List Char :=
  [digitChar (n / 1000), digitChar (n / 100 % 10), digitChar (n / 10 % 10),
   digitChar (n % 10)]

/-- Rendering of the fractional part: nothing for no digits, otherwise a dot
and the digits; always followed by the final `Z`. -/
def fracChars (ds : List Char) : List Char :=
  if ds.isEmpty then ['Z'] else '.' :: (ds ++ ['Z'])

/-- The timestamp string of shape `YYYY-MM-DDTHH:MM:SS[.F+]Z` with the given
numeric components and fractional digits.  Quantifying over its arguments
ranges over exactly the strings of the expected shape. -/
def renderTimestamp (y mo d h mi s : Nat) (ds : List Char) : List Char :=
  fourChars y ++ '-' :: (twoChars mo ++ '-' :: (twoChars d ++ 'T' ::
    (twoChars h ++ ':' :: (twoChars mi ++ ':' :: (twoChars s ++ fracChars ds)))))

example : parse_gcp_timestamp "2020-01-01T00:00:00Z" =
    Except.ok ⟨2020, 1, 1, 0, 0, 0, 0⟩ := by rfl

example : parse_gcp_timestamp "2020-01-01T00:00:00.9Z" =
    Except.ok ⟨2020, 1, 1, 0, 0, 0, 900000⟩ := by rfl

example : (parse_gcp_timestamp "2020-01-01T00:00:00.9").isOk = false := by decide

/-- Modelled from the spec: one response of the paginated listing endpoint — an
array of items under the caller-specified field, and an optional next-page
token.  The string-keyed field indirection of the wire format is resolved into
the `items` field. -/
structure Page (α : Type) where
  items : List α
  nextPageToken : Option String
deriving DecidableEq, Repr

/-- Modelled from the spec: the loop of `common.list_all_pages` (absent from
the provided sources) — call `makeRequest` with the current token, execute it
(modelled as the `Except` result of `makeRequest`), collect the items, and
continue with the response's next-page token while one is present.  Any
execution failure propagates unmodified.  `fuel` bounds the number of
iterations (`none` = fuel ran out before the listing was drained); alongside
the collected items the trace of tokens passed to `makeRequest` is returned,
which records how the request factory was invoked. -/
def listPagesLoop (makeRequest : Option String → Except ε (Page α)) :
    Nat → Option String → Option (Except ε (List α × List (Option String)))
  | 0, _ => none
  | fuel + 1, token =>
    match makeRequest token with
    | Except.error e => some (Except.error e)
    | Except.ok page =>
      match page.nextPageToken with
      | none => some (Except.ok (page.items, [token]))
      | some t =>
        match listPagesLoop makeRequest fuel (some t) with
        | none => none
        | some (Except.error e) => some (Except.error e)
        | some (Except.ok (items, trace)) =>
          some (Except.ok (page.items ++ items, token :: trace))

/-- Modelled from the spec: `common.list_all_pages` (absent from the provided
sources) — drain the paginated listing starting from the first page
(`makeRequest None`). -/
def list_all_pages (makeRequest : Option String → Except ε (Page α))
    (fuel : Nat) : Option (Except ε (List α × List (Option String))) :=
  listPagesLoop makeRequest fuel none

/-- The request factory serves, starting from a given token, exactly the given
well-formed sequence of pages: each request succeeds with the next page, every
page but the last carries a next-page token, and the last page carries none. -/
inductive Serves (makeRequest : Option String → Except ε (Page α)) :
    Option String → List (Page α) → Prop
  | last (t : Option String) (p : Page α) :
      makeRequest t = Except.ok p → p.nextPageToken = none →
      Serves makeRequest t [p]
  | more (t : Option String) (p : Page α) (u : String) (ps : List (Page α)) :
      makeRequest t = Except.ok p → p.nextPageToken = some u →
      Serves makeRequest (some u) ps → Serves makeRequest t (p :: ps)

/-- The request factory, starting from a given token, serves a chain of pages
that fails with error `e` after `n` successful pages. -/
inductive FailsFrom (makeRequest : Option String → Except ε (Page α)) (e : ε) :
    Option String → Nat → Prop
  | here (t : Option String) : makeRequest t = Except.error e →
      FailsFrom makeRequest e t 0
  | there (t : Option String) (p : Page α) (u : String) (n : Nat) :
      makeRequest t = Except.ok p → p.nextPageToken = some u →
      FailsFrom makeRequest e (some u) n → FailsFrom makeRequest e t (n + 1)

/-- Modelled from the spec: a raw instance record as returned by the listing
RPC — an id and a start-time string. -/
structure RawInstance where
  id : String
  startTime : String
deriving DecidableEq, Repr

/-- Modelled from the spec: `RestartCommand` — `(instanceName, versionKey,
projectId)`, immutable, equality structural. -/
structure RestartCommand where
  project : String
  version : VersionKey
  instance_name : String
deriving DecidableEq, Repr

/-- Modelled from the spec: `steps.kill_nomulus_instance` (absent from the
provided sources) — build the restart command for one instance. -/
def kill_nomulus_instance (project : String) (version : VersionKey)
    (instanceName : String) : RestartCommand :=
  ⟨project, version, instanceName⟩

/-- Modelled from the spec: the command's human-readable description of the
delete-instance invocation it stands for, a pure function of its fields. -/
def RestartCommand.info (c : RestartCommand) : String :=
  "gcloud app instances delete " ++ c.instance_name ++
    " --quiet --user-output-enabled=false --service " ++ c.version.service ++
    " --version " ++ c.version.version ++ " --project " ++ c.project

/-- Modelled from the spec: parsing of every fetched record's start time —
the planner normalizes each record's start-time string and fails on the first
record whose start time does not parse (fail-closed). -/
def parseInstances : List RawInstance → Except String (List (String × Timestamp))
  | [] => Except.ok []
  | r :: rs =>
    match parse_gcp_timestamp r.startTime with
    | Except.error e => Except.error e
    | Except.ok ts =>
      match parseInstances rs with
      | Except.error e => Except.error e
      | Except.ok rest => Except.ok ((r.id, ts) :: rest)

/-- Comparison of parsed instance records by normalized start time. -/
def startLE (a b : String × Timestamp) : Prop := a.2.key ≤ b.2.key

instance : DecidableRel startLE := fun a b => Nat.decLe a.2.key b.2.key

/-- Modelled from the spec: the pure planning core — keep the records whose
normalized start time is strictly earlier than the cutoff, sorted ascending by
normalized start time (oldest first). -/
def plan_records (records : List (String × Timestamp)) (cutoff : Timestamp) :
    List (String × Timestamp) :=
  (records.filter (fun r => r.2.key < cutoff.key)).insertionSort startLE

/-- Errors of a planning call: a transport failure from a page request, or a
parse failure of some record's start time. -/
inductive PlanError (ε : Type) where
  | transport (e : ε)
  | parse (msg : String)
deriving DecidableEq, Repr

/-- Modelled from the spec: `rolling_restart.generate_steps` (absent from the
provided sources) — drain the instance listing through the paginated fetcher,
normalize every record's start time, keep the records started strictly before
the cutoff, sort them oldest first, and emit one kill command per surviving
record.  `none` = fuel ran out before the listing was drained. -/
def generate_steps (makeRequest : Option String → Except ε (Page RawInstance))
    (fuel : Nat) (project : String) (version : VersionKey) (cutoff : Timestamp) :
    Option (Except (PlanError ε) (List RestartCommand)) :=
  match list_all_pages makeRequest fuel with
  | none => none
  | some (Except.error e) => some (Except.error (PlanError.transport e))
  | some (Except.ok (instances, _)) =>
    match parseInstances instances with
    | Except.error msg => some (Except.error (PlanError.parse msg))
    | Except.ok records =>
      some (Except.ok ((plan_records records cutoff).map
        (fun r => kill_nomulus_instance project version r.1)))

instance : IsTotal (String × Timestamp) startLE :=
  ⟨fun a b => Nat.le_total a.2.key b.2.key⟩

instance : IsTrans (String × Timestamp) startLE :=
  ⟨fun _ _ _ hab hbc => Nat.le_trans hab hbc⟩

lemma char_eq_of_toNat_eq {c d : Char} (h : c.toNat = d.toNat) : c = d := by
  apply Char.eq_of_val_eq
  ext
  exact h

lemma isDigit_digitChar {n : Nat} (h : n < 10) : (digitChar n).isDigit = true := by
  have key : ∀ m, m < 10 → (Char.ofNat (48 + m)).isDigit = true := by decide
  exact key n h

lemma toNat_digitChar {n : Nat} (h : n < 10) : (digitChar n).toNat = 48 + n := by
  have key : ∀ m, m < 10 → (Char.ofNat (48 + m)).toNat = 48 + m := by decide
  exact key n h

lemma digitVal_digitChar {n : Nat} (h : n < 10) : digitVal (digitChar n) = n := by
  simp [digitVal, toNat_digitChar h]

lemma toNat_bounds_of_isDigit {c : Char} (h : c.isDigit = true) :
    48 ≤ c.toNat ∧ c.toNat ≤ 57 := by
  simp [Char.isDigit] at h
  exact ⟨h.1, h.2⟩

lemma digitVal_lt_ten {c : Char} (h : c.isDigit = true) : digitVal c < 10 := by
  have hb := toNat_bounds_of_isDigit h
  simp only [digitVal]
  omega

lemma digitChar_digitVal {c : Char} (h : c.isDigit = true) :
    digitChar (digitVal c) = c := by
  have hb := toNat_bounds_of_isDigit h
  apply char_eq_of_toNat_eq
  rw [toNat_digitChar (digitVal_lt_ten h)]
  simp only [digitVal]
  omega

lemma takeWhile_append_all {α : Type} {p : α → Bool} {l1 l2 : List α}
    (h : ∀ c ∈ l1, p c = true) :
    (l1 ++ l2).takeWhile p = l1 ++ l2.takeWhile p := by
  induction l1 with
  | nil => simp
  | cons a l ih =>
    have ha : p a = true := h a (List.mem_cons_self a l)
    simp only [List.cons_append, List.takeWhile_cons, ha, if_true]
    rw [ih (fun c hc => h c (List.mem_cons_of_mem a hc))]

lemma dropWhile_append_all {α : Type} {p : α → Bool} {l1 l2 : List α}
    (h : ∀ c ∈ l1, p c = true) :
    (l1 ++ l2).dropWhile p = l2.dropWhile p := by
  induction l1 with
  | nil => simp
  | cons a l ih =>
    have ha : p a = true := h a (List.mem_cons_self a l)
    simp only [List.cons_append, List.dropWhile_cons, ha, if_true]
    exact ih (fun c hc => h c (List.mem_cons_of_mem a hc))

lemma parseFraction_fracChars {ds : List Char} (hlen : ds.length ≤ 9)
    (hdig : ∀ c ∈ ds, c.isDigit = true) :
    parseFraction (fracChars ds) = Except.ok ds := by
  cases ds with
  | nil => rfl
  | cons c ds =>
    have hz : Char.isDigit 'Z' = false := by decide
    simp only [fracChars, List.isEmpty_cons, if_false, Bool.false_eq_true]
    simp only [parseFraction]
    rw [takeWhile_append_all hdig, dropWhile_append_all hdig]
    simp only [List.takeWhile_cons, List.dropWhile_cons, hz]
    rw [if_pos]
    · simp
    · refine ⟨rfl, by simp, by simpa using hlen⟩

lemma parseChars_render (y mo d h mi s : Nat) (ds : List Char)
    (hy : y < 10000) (hmo : mo < 100) (hd : d < 100) (hh : h < 100)
    (hmi : mi < 100) (hs : s < 100) (hds : ds.length ≤ 9)
    (hdig : ∀ c ∈ ds, c.isDigit = true) :
    parseChars (renderTimestamp y mo d h mi s ds) =
      Except.ok ⟨y, mo, d, h, mi, s, rescaleMicros ds⟩ := by
  have d1 : (digitChar (y / 1000)).isDigit = true := isDigit_digitChar (by omega)
  have d2 : (digitChar (y / 100 % 10)).isDigit = true := isDigit_digitChar (by omega)
  have d3 : (digitChar (y / 10 % 10)).isDigit = true := isDigit_digitChar (by omega)
  have d4 : (digitChar (y % 10)).isDigit = true := isDigit_digitChar (by omega)
  have d5 : (digitChar (mo / 10)).isDigit = true := isDigit_digitChar (by omega)
  have d6 : (digitChar (mo % 10)).isDigit = true := isDigit_digitChar (by omega)
  have d7 : (digitChar (d / 10)).isDigit = true := isDigit_digitChar (by omega)
  have d8 : (digitChar (d % 10)).isDigit = true := isDigit_digitChar (by omega)
  have d9 : (digitChar (h / 10)).isDigit = true := isDigit_digitChar (by omega)
  have d10 : (digitChar (h % 10)).isDigit = true := isDigit_digitChar (by omega)
  have d11 : (digitChar (mi / 10)).isDigit = true := isDigit_digitChar (by omega)
  have d12 : (digitChar (mi % 10)).isDigit = true := isDigit_digitChar (by omega)
  have d13 : (digitChar (s / 10)).isDigit = true := isDigit_digitChar (by omega)
  have d14 : (digitChar (s % 10)).isDigit = true := isDigit_digitChar (by omega)
  simp only [renderTimestamp, fourChars, twoChars, List.cons_append,
    List.nil_append]
  simp only [parseChars]
  rw [if_pos]
  · rw [parseFraction_fracChars hds hdig]
    simp only [natOfDigits]
    refine congrArg _ ?_
    congr 1
    · rw [digitVal_digitChar (by omega : y / 1000 < 10),
        digitVal_digitChar (by omega : y / 100 % 10 < 10),
        digitVal_digitChar (by omega : y / 10 % 10 < 10),
        digitVal_digitChar (by omega : y % 10 < 10)]
      omega
    · rw [digitVal_digitChar (by omega : mo / 10 < 10),
        digitVal_digitChar (by omega : mo % 10 < 10)]
      omega
    · rw [digitVal_digitChar (by omega : d / 10 < 10),
        digitVal_digitChar (by omega : d % 10 < 10)]
      omega
    · rw [digitVal_digitChar (by omega : h / 10 < 10),
        digitVal_digitChar (by omega : h % 10 < 10)]
      omega
    · rw [digitVal_digitChar (by omega : mi / 10 < 10),
        digitVal_digitChar (by omega : mi % 10 < 10)]
      omega
    · rw [digitVal_digitChar (by omega : s / 10 < 10),
        digitVal_digitChar (by omega : s % 10 < 10)]
      omega
  · exact ⟨by simp [d1, d2, d3, d4, d5, d6, d7, d8, d9, d10, d11, d12, d13, d14],
      trivial, trivial, trivial, trivial, trivial⟩

/-- The expected timestamp shape `YYYY-MM-DDTHH:MM:SS[.F+]Z`: exactly the
strings rendered from numeric components of the right digit counts and zero to
nine fractional digits. -/
def MatchesShape (cs : List Char) : Prop :=
  ∃ y mo d h mi s : Nat, ∃ ds : List Char,
    y < 10000 ∧ mo < 100 ∧ d < 100 ∧ h < 100 ∧ mi < 100 ∧ s < 100 ∧
    ds.length ≤ 9 ∧ (∀ c ∈ ds, c.isDigit = true) ∧
    cs = renderTimestamp y mo d h mi s ds

lemma parseFraction_sound {rest ds : List Char}
    (hp : parseFraction rest = Except.ok ds) :
    ds.length ≤ 9 ∧ (∀ c ∈ ds, c.isDigit = true) ∧ rest = fracChars ds := by
  rw [parseFraction.eq_def] at hp
  split at hp
  · injection hp with hds
    subst hds
    exact ⟨by simp, by simp, rfl⟩
  · rename_i rest1
    split at hp
    case isTrue hcond =>
      obtain ⟨hdrop, hlen1, hlen9⟩ := hcond
      injection hp with hds
      subst hds
      refine ⟨hlen9, fun c hc => List.mem_takeWhile_imp hc, ?_⟩
      have hne : (rest1.takeWhile Char.isDigit).isEmpty = false := by
        cases hq : rest1.takeWhile Char.isDigit with
        | nil => rw [hq] at hlen1; simp at hlen1
        | cons a l => simp
      simp only [fracChars, hne, Bool.false_eq_true, if_false]
      congr 1
      conv_rhs => rw [hdrop.symm]
      exact (List.takeWhile_append_dropWhile Char.isDigit rest1).symm
    case isFalse => cases hp
  · cases hp

lemma parseChars_sound {cs : List Char} {t : Timestamp}
    (hp : parseChars cs = Except.ok t) : MatchesShape cs := by
  rw [parseChars.eq_def] at hp
  split at hp
  case _ y1 y2 y3 y4 c1 m1 m2 c2 d1 d2 c3 h1 h2 c4 n1 n2 c5 s1 s2 rest =>
    split at hp
    case isTrue hg =>
      obtain ⟨hdig14, hc1, hc2, hc3, hc4, hc5⟩ := hg
      subst hc1; subst hc2; subst hc3; subst hc4; subst hc5
      simp only [Bool.and_eq_true] at hdig14
      obtain ⟨⟨⟨⟨⟨⟨⟨⟨⟨⟨⟨⟨⟨hy1d, hy2d⟩, hy3d⟩, hy4d⟩, hm1d⟩, hm2d⟩, hd1d⟩,
        hd2d⟩, hh1d⟩, hh2d⟩, hn1d⟩, hn2d⟩, hs1d⟩, hs2d⟩ := hdig14
      split at hp
      case _ e heq => cases hp
      case _ ds heq =>
        obtain ⟨hlen, hdsdig, hrest⟩ := parseFraction_sound heq
        have by1 := digitVal_lt_ten hy1d
        have by2 := digitVal_lt_ten hy2d
        have by3 := digitVal_lt_ten hy3d
        have by4 := digitVal_lt_ten hy4d
        have bm1 := digitVal_lt_ten hm1d
        have bm2 := digitVal_lt_ten hm2d
        have bd1 := digitVal_lt_ten hd1d
        have bd2 := digitVal_lt_ten hd2d
        have bh1 := digitVal_lt_ten hh1d
        have bh2 := digitVal_lt_ten hh2d
        have bn1 := digitVal_lt_ten hn1d
        have bn2 := digitVal_lt_ten hn2d
        have bs1 := digitVal_lt_ten hs1d
        have bs2 := digitVal_lt_ten hs2d
        refine ⟨digitVal y1 * 1000 + digitVal y2 * 100 + digitVal y3 * 10 +
            digitVal y4,
          digitVal m1 * 10 + digitVal m2, digitVal d1 * 10 + digitVal d2,
          digitVal h1 * 10 + digitVal h2, digitVal n1 * 10 + digitVal n2,
          digitVal s1 * 10 + digitVal s2, ds,
          by omega, by omega, by omega, by omega, by omega, by omega,
          hlen, hdsdig, ?_⟩
        have e1 : digitChar ((digitVal y1 * 1000 + digitVal y2 * 100 +
            digitVal y3 * 10 + digitVal y4) / 1000) = y1 := by
          rw [show (digitVal y1 * 1000 + digitVal y2 * 100 + digitVal y3 * 10 +
            digitVal y4) / 1000 = digitVal y1 by omega]
          exact digitChar_digitVal hy1d
        have e2 : digitChar ((digitVal y1 * 1000 + digitVal y2 * 100 +
            digitVal y3 * 10 + digitVal y4) / 100 % 10) = y2 := by
          rw [show (digitVal y1 * 1000 + digitVal y2 * 100 + digitVal y3 * 10 +
            digitVal y4) / 100 % 10 = digitVal y2 by omega]
          exact digitChar_digitVal hy2d
        have e3 : digitChar ((digitVal y1 * 1000 + digitVal y2 * 100 +
            digitVal y3 * 10 + digitVal y4) / 10 % 10) = y3 := by
          rw [show (digitVal y1 * 1000 + digitVal y2 * 100 + digitVal y3 * 10 +
            digitVal y4) / 10 % 10 = digitVal y3 by omega]
          exact digitChar_digitVal hy3d
        have e4 : digitChar ((digitVal y1 * 1000 + digitVal y2 * 100 +
            digitVal y3 * 10 + digitVal y4) % 10) = y4 := by
          rw [show (digitVal y1 * 1000 + digitVal y2 * 100 + digitVal y3 * 10 +
            digitVal y4) % 10 = digitVal y4 by omega]
          exact digitChar_digitVal hy4d
        have e5 : digitChar ((digitVal m1 * 10 + digitVal m2) / 10) = m1 := by
          rw [show (digitVal m1 * 10 + digitVal m2) / 10 = digitVal m1 by omega]
          exact digitChar_digitVal hm1d
        have e6 : digitChar ((digitVal m1 * 10 + digitVal m2) % 10) = m2 := by
          rw [show (digitVal m1 * 10 + digitVal m2) % 10 = digitVal m2 by omega]
          exact digitChar_digitVal hm2d
        have e7 : digitChar ((digitVal d1 * 10 + digitVal d2) / 10) = d1 := by
          rw [show (digitVal d1 * 10 + digitVal d2) / 10 = digitVal d1 by omega]
          exact digitChar_digitVal hd1d
        have e8 : digitChar ((digitVal d1 * 10 + digitVal d2) % 10) = d2 := by
          rw [show (digitVal d1 * 10 + digitVal d2) % 10 = digitVal d2 by omega]
          exact digitChar_digitVal hd2d
        have e9 : digitChar ((digitVal h1 * 10 + digitVal h2) / 10) = h1 := by
          rw [show (digitVal h1 * 10 + digitVal h2) / 10 = digitVal h1 by omega]
          exact digitChar_digitVal hh1d
        have e10 : digitChar ((digitVal h1 * 10 + digitVal h2) % 10) = h2 := by
          rw [show (digitVal h1 * 10 + digitVal h2) % 10 = digitVal h2 by omega]
          exact digitChar_digitVal hh2d
        have e11 : digitChar ((digitVal n1 * 10 + digitVal n2) / 10) = n1 := by
          rw [show (digitVal n1 * 10 + digitVal n2) / 10 = digitVal n1 by omega]
          exact digitChar_digitVal hn1d
        have e12 : digitChar ((digitVal n1 * 10 + digitVal n2) % 10) = n2 := by
          rw [show (digitVal n1 * 10 + digitVal n2) % 10 = digitVal n2 by omega]
          exact digitChar_digitVal hn2d
        have e13 : digitChar ((digitVal s1 * 10 + digitVal s2) / 10) = s1 := by
          rw [show (digitVal s1 * 10 + digitVal s2) / 10 = digitVal s1 by omega]
          exact digitChar_digitVal hs1d
        have e14 : digitChar ((digitVal s1 * 10 + digitVal s2) % 10) = s2 := by
          rw [show (digitVal s1 * 10 + digitVal s2) % 10 = digitVal s2 by omega]
          exact digitChar_digitVal hs2d
        simp only [renderTimestamp, fourChars, twoChars, e1, e2, e3, e4, e5,
          e6, e7, e8, e9, e10, e11, e12, e13, e14, List.cons_append,
          List.nil_append, hrest]
    case isFalse => cases hp
  case _ => cases hp

lemma serves_cons {ε α : Type} {makeRequest : Option String → Except ε (Page α)}
    {t : Option String} {ps : List (Page α)} (hs : Serves makeRequest t ps) :
    ∃ q qs, ps = q :: qs := by
  cases hs with
  | last t p _ _ => exact ⟨p, [], rfl⟩
  | more t p u ps _ _ _ => exact ⟨p, ps, rfl⟩

lemma listPagesLoop_serves {ε α : Type}
    {makeRequest : Option String → Except ε (Page α)} {t : Option String}
    {ps : List (Page α)} (hs : Serves makeRequest t ps) :
    ∀ fuel, ps.length ≤ fuel →
      listPagesLoop makeRequest fuel t =
        some (Except.ok ((ps.map Page.items).flatten,
          t :: ps.dropLast.map Page.nextPageToken)) := by
  induction hs with
  | last t p hreq htok =>
    intro fuel hfuel
    match fuel, hfuel with
    | fuel + 1, _ =>
      simp [listPagesLoop, hreq, htok]
  | more t p u ps hreq htok htail ih =>
    intro fuel hfuel
    match fuel, hfuel with
    | fuel + 1, hfuel =>
      have hlen : ps.length ≤ fuel := by
        simp only [List.length_cons] at hfuel
        omega
      obtain ⟨q, qs, rfl⟩ := serves_cons htail
      simp only [listPagesLoop, hreq, htok, ih fuel hlen]
      simp [List.dropLast_cons₂, htok]

lemma listPagesLoop_fails {ε α : Type}
    {makeRequest : Option String → Except ε (Page α)} {e : ε}
    {t : Option String} {n : Nat} (hf : FailsFrom makeRequest e t n) :
    ∀ fuel, n < fuel → listPagesLoop makeRequest fuel t =
      some (Except.error e) := by
  induction hf with
  | here t hreq =>
    intro fuel hfuel
    match fuel, hfuel with
    | fuel + 1, _ => simp [listPagesLoop, hreq]
  | there t p u n hreq htok htail ih =>
    intro fuel hfuel
    match fuel, hfuel with
    | fuel + 1, hfuel =>
      have hn : n < fuel := by omega
      simp [listPagesLoop, hreq, htok, ih fuel hn]

lemma parseFraction_error {rest : List Char} {e : String}
    (h : parseFraction rest = Except.error e) : e = "ParseError" := by
  rw [parseFraction.eq_def] at h
  split at h
  · cases h
  · split at h
    case isTrue => cases h
    case isFalse =>
      injection h with h
      exact h.symm
  · injection h with h
    exact h.symm

lemma parseChars_error {cs : List Char} {e : String}
    (h : parseChars cs = Except.error e) : e = "ParseError" := by
  rw [parseChars.eq_def] at h
  split at h
  · split at h
    case isTrue =>
      split at h
      case _ e2 heq =>
        injection h with h
        rw [h.symm]
        exact parseFraction_error heq
      case _ ds heq => cases h
    case isFalse =>
      injection h with h
      exact h.symm
  · injection h with h
    exact h.symm

lemma parseInstances_fails {rs : List RawInstance}
    (h : ∃ r ∈ rs, (parse_gcp_timestamp r.startTime).isOk = false) :
    ∃ msg, parseInstances rs = Except.error msg := by
  induction rs with
  | nil => simp at h
  | cons r rs ih =>
    cases hr : parse_gcp_timestamp r.startTime with
    | error e =>
      refine ⟨e, ?_⟩
      simp only [parseInstances]
      rw [hr]
    | ok ts =>
      obtain ⟨x, hx, hxf⟩ := h
      rcases List.mem_cons.mp hx with rfl | hx2
      · rw [hr] at hxf
        simp [Except.isOk, Except.toBool] at hxf
      · obtain ⟨msg, hmsg⟩ := ih ⟨x, hx2, hxf⟩
        refine ⟨msg, ?_⟩
        simp only [parseInstances]
        rw [hr, hmsg]

lemma parseInstances_drops_nothing {rs : List RawInstance}
    {out : List (String × Timestamp)} (h : parseInstances rs = Except.ok out) :
    out.length = rs.length ∧
      ∀ i : Nat, ∀ hi : i < out.length, ∀ hj : i < rs.length,
        (out.get ⟨i, hi⟩).1 = (rs.get ⟨i, hj⟩).id ∧
        parse_gcp_timestamp (rs.get ⟨i, hj⟩).startTime =
          Except.ok (out.get ⟨i, hi⟩).2 := by
  induction rs generalizing out with
  | nil =>
    rw [parseInstances.eq_def] at h
    injection h with h
    subst h
    exact ⟨rfl, fun i hi hj => absurd hi (by simp)⟩
  | cons r rs ih =>
    simp only [parseInstances] at h
    cases hr : parse_gcp_timestamp r.startTime with
    | error e => rw [hr] at h; cases h
    | ok ts =>
      rw [hr] at h
      cases hrest : parseInstances rs with
      | error e => rw [hrest] at h; cases h
      | ok rest =>
        rw [hrest] at h
        injection h with h
        subst h
        obtain ⟨hlen, helts⟩ := ih hrest
        refine ⟨by simp [hlen], ?_⟩
        intro i hi hj
        cases i with
        | zero => exact ⟨rfl, hr⟩
        | succ i =>
          simp only [List.length_cons] at hi hj
          exact helts i (by omega) (by omega)

lemma plan_records_sound {records : List (String × Timestamp)}
    {cutoff : Timestamp} {r : String × Timestamp}
    (hr : r ∈ plan_records records cutoff) : r.2.key < cutoff.key := by
  rw [plan_records] at hr
  have hmem := (List.mem_insertionSort startLE).mp hr
  have := (List.mem_filter.mp hmem).2
  exact of_decide_eq_true this

lemma plan_records_perm (records : List (String × Timestamp))
    (cutoff : Timestamp) :
    (plan_records records cutoff).Perm
      (records.filter fun r => decide (r.2.key < cutoff.key)) :=
  List.perm_insertionSort startLE _

lemma plan_records_sorted (records : List (String × Timestamp))
    (cutoff : Timestamp) : List.Sorted startLE (plan_records records cutoff) :=
  List.sorted_insertionSort startLE _

lemma generate_steps_ok {ε : Type}
    {makeRequest : Option String → Except ε (Page RawInstance)} {fuel : Nat}
    {project : String} {version : VersionKey} {cutoff : Timestamp}
    {instances : List RawInstance} {tr : List (Option String)}
    {records : List (String × Timestamp)}
    (hlist : list_all_pages makeRequest fuel =
      some (Except.ok (instances, tr)))
    (hparse : parseInstances instances = Except.ok records) :
    generate_steps makeRequest fuel project version cutoff =
      some (Except.ok ((plan_records records cutoff).map
        (fun r => kill_nomulus_instance project version r.1))) := by
  unfold generate_steps
  rw [hlist]
  dsimp only
  rw [hparse]

/-- First page of the listing used in `rolling_restart_test.py`. -/
def vmPage1 : Page RawInstance :=
  ⟨[⟨"vm_2019", "2019-01-01T00:00:00Z"⟩], some "token"⟩

/-- Second and final page of the listing used in `rolling_restart_test.py`. -/
def vmPage2 : Page RawInstance :=
  ⟨[⟨"vm_2020", "2020-01-01T00:00:00Z"⟩], none⟩

/-- Request factory serving the two-page listing of `rolling_restart_test.py`. -/
def vmRequest : Option String → Except String (Page RawInstance) :=
  fun t =>
    match t with
    | none => Except.ok vmPage1
    | some s => if s = "token" then Except.ok vmPage2
                else Except.error "unknown page token"

/-- The version under restart in `rolling_restart_test.py`. -/
def myVersion : VersionKey := ⟨"my_service", "my_version"⟩

/-- Request factory serving the two-page listing of
`test_list_all_pages_multi_page` in `common_test.py`. -/
def natPagesRequest : Option String → Except String (Page Nat) :=
  fun t =>
    match t with
    | none => Except.ok ⟨[1], some "token"⟩
    | some s => if s = "token" then Except.ok ⟨[2], none⟩
                else Except.error "unknown page token"

/-- Request factory whose page request always fails. -/
def failingRequest : Option String → Except String (Page RawInstance) :=
  fun _ => Except.error "transport failure"

/-- Request factory serving a single page holding one record with an
unparsable start time. -/
def badTimeRequest : Option String → Except String (Page RawInstance) :=
  fun _ => Except.ok ⟨[⟨"vm_bad", "not-a-timestamp"⟩], none⟩

/-- Request factory serving a single page with an empty item list. -/
def emptyListingRequest : Option String → Except String (Page RawInstance) :=
  fun _ => Except.ok ⟨[], none⟩

/-- C1: for every cutoff and every instance set, the planned records are
exactly the records whose normalized start time is strictly earlier than the
cutoff — soundness (every planned record is stale), completeness (the planned
records are a permutation of all stale records, so no stale instance is
omitted) — the sequence is sorted non-decreasing by normalized start time, and
`generate_steps` returns exactly one kill command per planned record, in this
order. -/
theorem generate_steps_sound_complete_sorted :
    ∀ (records : List (String × Timestamp)) (cutoff : Timestamp),
      (∀ r ∈ plan_records records cutoff, r.2.key < cutoff.key) ∧
      (plan_records records cutoff).Perm
        (records.filter fun r => decide (r.2.key < cutoff.key)) ∧
      List.Sorted startLE (plan_records records cutoff) ∧
      (∀ (ε : Type) (mk : Option String → Except ε (Page RawInstance))
        (fuel : Nat) (project : String) (version : VersionKey)
        (instances : List RawInstance) (tr : List (Option String)),
        list_all_pages mk fuel = some (Except.ok (instances, tr)) →
        parseInstances instances = Except.ok records →
        generate_steps mk fuel project version cutoff =
          some (Except.ok ((plan_records records cutoff).map
            (fun r => kill_nomulus_instance project version r.1)))) :=
  fun records cutoff =>
    ⟨fun _ hr => plan_records_sound hr, plan_records_perm records cutoff,
      plan_records_sorted records cutoff,
      fun _ _ _ _ _ _ _ hlist hparse => generate_steps_ok hlist hparse⟩

theorem generate_steps_sound_complete_sorted_witness :
    (("vm_2019", (⟨2019, 1, 1, 0, 0, 0, 0⟩ : Timestamp)) ∈
      plan_records [("vm_2019", ⟨2019, 1, 1, 0, 0, 0, 0⟩),
        ("vm_2020", ⟨2020, 1, 1, 0, 0, 0, 0⟩)] ⟨2020, 6, 1, 0, 0, 0, 0⟩) ∧
    ("vm_2019", (⟨2019, 1, 1, 0, 0, 0, 0⟩ : Timestamp)).2.key <
      (⟨2020, 6, 1, 0, 0, 0, 0⟩ : Timestamp).key ∧
    generate_steps vmRequest 2 "my_project" myVersion ⟨2020, 6, 1, 0, 0, 0, 0⟩ =
      some (Except.ok [kill_nomulus_instance "my_project" myVersion "vm_2019",
        kill_nomulus_instance "my_project" myVersion "vm_2020"]) :=
  ⟨by decide,
    (generate_steps_sound_complete_sorted
      [("vm_2019", ⟨2019, 1, 1, 0, 0, 0, 0⟩),
        ("vm_2020", ⟨2020, 1, 1, 0, 0, 0, 0⟩)] ⟨2020, 6, 1, 0, 0, 0, 0⟩).1
      ("vm_2019", ⟨2019, 1, 1, 0, 0, 0, 0⟩) (by decide),
    (generate_steps_sound_complete_sorted
      [("vm_2019", ⟨2019, 1, 1, 0, 0, 0, 0⟩),
        ("vm_2020", ⟨2020, 1, 1, 0, 0, 0, 0⟩)] ⟨2020, 6, 1, 0, 0, 0, 0⟩).2.2.2
      String vmRequest 2 "my_project" myVersion
      [⟨"vm_2019", "2019-01-01T00:00:00Z"⟩, ⟨"vm_2020", "2020-01-01T00:00:00Z"⟩]
      [none, some "token"] (by rfl) (by rfl)⟩

/-- C2: for every well-formed sequence of pages, the paginated fetcher returns
the concatenation of all pages' item arrays in page order, and the request
factory is invoked exactly once per page, in order — `none` on the first call
and the previous page's next-page token on each subsequent call (the returned
trace records these calls), stopping after the first response without a
next-page token. -/
theorem list_all_pages_drains_in_order :
    ∀ (ε α : Type) (makeRequest : Option String → Except ε (Page α))
      (ps : List (Page α)) (fuel : Nat),
      Serves makeRequest none ps → ps.length ≤ fuel →
      list_all_pages makeRequest fuel =
        some (Except.ok ((ps.map Page.items).flatten,
          none :: ps.dropLast.map Page.nextPageToken)) :=
  fun _ _ _ _ fuel hs hf => listPagesLoop_serves hs fuel hf

theorem list_all_pages_drains_in_order_witness :
    list_all_pages natPagesRequest 2 =
      some (Except.ok ([1, 2], [none, some "token"])) :=
  list_all_pages_drains_in_order String Nat natPagesRequest
    [⟨[1], some "token"⟩, ⟨[2], none⟩] 2
    (Serves.more none ⟨[1], some "token"⟩ "token" [⟨[2], none⟩] rfl rfl
      (Serves.last (some "token") ⟨[2], none⟩ rfl rfl)) (by decide)

/-- C3: every valid timestamp string of shape `YYYY-MM-DDTHH:MM:SS[.F+]Z` with
zero to nine fractional digits parses to the microsecond-precision timestamp
whose fractional component is the rescaling of the digits to exactly six
(trailing-zero padding below six, truncation without rounding above six,
absent fraction treated as zero), and varying only the fractional digits never
changes the integer-seconds portion of the result. -/
theorem parse_gcp_timestamp_rescales_fraction :
    ∀ (y mo d h mi s : Nat) (ds : List Char),
      y < 10000 → mo < 100 → d < 100 → h < 100 → mi < 100 → s < 100 →
      ds.length ≤ 9 → (∀ c ∈ ds, c.isDigit = true) →
      parse_gcp_timestamp (String.mk (renderTimestamp y mo d h mi s ds)) =
        Except.ok ⟨y, mo, d, h, mi, s, rescaleMicros ds⟩ ∧
      ∀ ds2 : List Char, ds2.length ≤ 9 → (∀ c ∈ ds2, c.isDigit = true) →
        (parse_gcp_timestamp
            (String.mk (renderTimestamp y mo d h mi s ds2))).map
          Timestamp.secondsPart = Except.ok (y, mo, d, h, mi, s) := by
  intro y mo d h mi s ds hy hmo hd hh hmi hs hds hdig
  constructor
  · exact parseChars_render y mo d h mi s ds hy hmo hd hh hmi hs hds hdig
  · intro ds2 hds2 hdig2
    have hr := parseChars_render y mo d h mi s ds2 hy hmo hd hh hmi hs hds2 hdig2
    show (parseChars (renderTimestamp y mo d h mi s ds2)).map
      Timestamp.secondsPart = Except.ok (y, mo, d, h, mi, s)
    rw [hr]
    rfl

theorem parse_gcp_timestamp_rescales_fraction_witness :
    String.mk (renderTimestamp 2020 1 1 0 0 0 ['9']) =
      "2020-01-01T00:00:00.9Z" ∧
    rescaleMicros ['9'] = 900000 ∧
    parse_gcp_timestamp (String.mk (renderTimestamp 2020 1 1 0 0 0 ['9'])) =
      Except.ok ⟨2020, 1, 1, 0, 0, 0, rescaleMicros ['9']⟩ :=
  ⟨by decide, by decide,
    (parse_gcp_timestamp_rescales_fraction 2020 1 1 0 0 0 ['9'] (by decide)
      (by decide) (by decide) (by decide) (by decide) (by decide) (by decide)
      (by decide)).1⟩

/-- C4: a string that does not match the expected timestamp shape fails with a
`ParseError` (the parser succeeds exactly on the strings of the expected
shape, and every failure is the `ParseError`), and a parse failure for any
fetched instance record makes the whole planning call fail — no plan omitting
an unparsable record is ever returned. -/
theorem parse_gcp_timestamp_fail_closed :
    ∀ cs : List Char,
      ((parseChars cs).isOk = true ↔ MatchesShape cs) ∧
      ((parseChars cs).isOk = false →
        parseChars cs = Except.error "ParseError") ∧
      (∀ (ε : Type) (mk : Option String → Except ε (Page RawInstance))
        (fuel : Nat) (project : String) (version : VersionKey)
        (cutoff : Timestamp) (instances : List RawInstance)
        (tr : List (Option String)),
        list_all_pages mk fuel = some (Except.ok (instances, tr)) →
        (∃ r ∈ instances, (parse_gcp_timestamp r.startTime).isOk = false) →
        ∀ plan, generate_steps mk fuel project version cutoff ≠
          some (Except.ok plan)) := by
  intro cs
  refine ⟨⟨?_, ?_⟩, ?_, ?_⟩
  · intro hok
    cases hp : parseChars cs with
    | error e => rw [hp] at hok; simp [Except.isOk, Except.toBool] at hok
    | ok t => exact parseChars_sound hp
  · rintro ⟨y, mo, d, h, mi, s, ds, hy, hmo, hd, hh, hmi, hs, hds, hdig, rfl⟩
    rw [parseChars_render y mo d h mi s ds hy hmo hd hh hmi hs hds hdig]
    rfl
  · intro hfail
    cases hp : parseChars cs with
    | error e => rw [parseChars_error hp]
    | ok t => rw [hp] at hfail; simp [Except.isOk, Except.toBool] at hfail
  · intro ε mk fuel project version cutoff instances tr hlist hex plan
    obtain ⟨msg, hmsg⟩ := parseInstances_fails hex
    unfold generate_steps
    rw [hlist]
    dsimp only
    rw [hmsg]
    simp

theorem parse_gcp_timestamp_fail_closed_witness :
    parseChars (String.data "not-a-timestamp") = Except.error "ParseError" ∧
    generate_steps badTimeRequest 1 "p" myVersion ⟨2020, 1, 1, 0, 0, 0, 0⟩ ≠
      some (Except.ok []) :=
  ⟨(parse_gcp_timestamp_fail_closed (String.data "not-a-timestamp")).2.1
      (by decide),
    (parse_gcp_timestamp_fail_closed []).2.2 String badTimeRequest 1 "p"
      myVersion ⟨2020, 1, 1, 0, 0, 0, 0⟩ [⟨"vm_bad", "not-a-timestamp"⟩]
      [none] (by rfl)
      ⟨⟨"vm_bad", "not-a-timestamp"⟩, by decide, by decide⟩ []⟩

/-- C5: on the concrete two-page listing holding vm_2019 (started
2019-01-01T00:00:00Z) and vm_2020 (started 2020-01-01T00:00:00Z), a cutoff of
2020-06-01 yields exactly the plan [kill(vm_2019), kill(vm_2020)] in that
order, and a cutoff of 2019-12-01T00:00:00Z yields exactly [kill(vm_2019)]. -/
theorem generate_steps_test_scenarios :
    generate_steps vmRequest 2 "my_project" myVersion
        ⟨2020, 6, 1, 0, 0, 0, 0⟩ =
      some (Except.ok [kill_nomulus_instance "my_project" myVersion "vm_2019",
        kill_nomulus_instance "my_project" myVersion "vm_2020"]) ∧
    generate_steps vmRequest 2 "my_project" myVersion
        ⟨2019, 12, 1, 0, 0, 0, 0⟩ =
      some (Except.ok
        [kill_nomulus_instance "my_project" myVersion "vm_2019"]) :=
  ⟨by rfl, by rfl⟩

/-- C6: the command built by `kill_nomulus_instance` exposes the given
instance name unchanged, its description is the literal gcloud
delete-instance invocation with the instance, service, version and project
substituted, and the description is a pure function of the command's
fields. -/
theorem kill_nomulus_instance_description :
    ∀ (project : String) (version : VersionKey) (name : String),
      (kill_nomulus_instance project version name).instance_name = name ∧
      (kill_nomulus_instance project version name).info =
        "gcloud app instances delete " ++ name ++
          " --quiet --user-output-enabled=false --service " ++
          version.service ++ " --version " ++ version.version ++
          " --project " ++ project ∧
      (∀ c1 c2 : RestartCommand, c1.project = c2.project →
        c1.version = c2.version → c1.instance_name = c2.instance_name →
        c1.info = c2.info) :=
  fun _ _ _ =>
    ⟨rfl, rfl, fun c1 c2 h1 h2 h3 => by
      simp [RestartCommand.info, h1, h2, h3]⟩

theorem kill_nomulus_instance_description_witness :
    (kill_nomulus_instance "my_project" ⟨"my_service", "my_version"⟩
      "my_inst").instance_name = "my_inst" ∧
    (kill_nomulus_instance "my_project" ⟨"my_service", "my_version"⟩
      "my_inst").info = "gcloud app instances delete my_inst --quiet --user-output-enabled=false --service my_service --version my_version --project my_project" :=
  ⟨(kill_nomulus_instance_description "my_project"
      ⟨"my_service", "my_version"⟩ "my_inst").1,
    ((kill_nomulus_instance_description "my_project"
      ⟨"my_service", "my_version"⟩ "my_inst").2.1).trans (by decide)⟩

/-- C7: a page-request execution failure propagates to the caller unmodified —
the fetch returns exactly the failing error, never a truncated item list, and the
planning call returns that transport error rather than any plan. -/
theorem transport_error_propagates :
    ∀ (ε : Type) (mk : Option String → Except ε (Page RawInstance)) (e : ε)
      (n fuel : Nat) (project : String) (version : VersionKey)
      (cutoff : Timestamp),
      FailsFrom mk e none n → n < fuel →
      list_all_pages mk fuel = some (Except.error e) ∧
      generate_steps mk fuel project version cutoff =
        some (Except.error (PlanError.transport e)) := by
  intro ε mk e n fuel project version cutoff hf hn
  have h := listPagesLoop_fails hf fuel hn
  refine ⟨h, ?_⟩
  unfold generate_steps
  rw [show list_all_pages mk fuel = some (Except.error e) from h]

theorem transport_error_propagates_witness :
    list_all_pages failingRequest 1 = some (Except.error "transport failure") ∧
    generate_steps failingRequest 1 "p" myVersion ⟨2020, 1, 1, 0, 0, 0, 0⟩ =
      some (Except.error (PlanError.transport "transport failure")) :=
  transport_error_propagates String failingRequest "transport failure" 0 1 "p"
    myVersion ⟨2020, 1, 1, 0, 0, 0, 0⟩ (FailsFrom.here none rfl) (by decide)

/-- C8: whenever the drained, fully-parsed listing contains zero stale
instances — in particular for an empty instance listing, or a cutoff at or
before every instance's start time — the planner succeeds with an empty plan
rather than an error. -/
theorem zero_stale_empty_plan :
    ∀ (ε : Type) (mk : Option String → Except ε (Page RawInstance))
      (fuel : Nat) (project : String) (version : VersionKey)
      (cutoff : Timestamp) (instances : List RawInstance)
      (tr : List (Option String)) (records : List (String × Timestamp)),
      list_all_pages mk fuel = some (Except.ok (instances, tr)) →
      parseInstances instances = Except.ok records →
      (∀ r ∈ records, cutoff.key ≤ r.2.key) →
      generate_steps mk fuel project version cutoff =
        some (Except.ok []) := by
  intro ε mk fuel project version cutoff instances tr records hlist hparse hall
  have hplan := @generate_steps_ok ε mk fuel project version cutoff instances
    tr records hlist hparse
  have hfilter : records.filter (fun r => decide (r.2.key < cutoff.key)) = [] := by
    apply List.filter_eq_nil_iff.mpr
    intro r hr
    simpa using Nat.not_lt.mpr (hall r hr)
  have hnil : plan_records records cutoff = [] := by
    have hperm := plan_records_perm records cutoff
    rw [hfilter] at hperm
    exact List.perm_nil.mp hperm
  rw [hplan, hnil]
  rfl

theorem zero_stale_empty_plan_witness :
    generate_steps emptyListingRequest 1 "p" myVersion
      ⟨2020, 1, 1, 0, 0, 0, 0⟩ = some (Except.ok []) :=
  zero_stale_empty_plan String emptyListingRequest 1 "p" myVersion
    ⟨2020, 1, 1, 0, 0, 0, 0⟩ [] [none] [] (by rfl) (by rfl)
    (fun r hr => absurd hr (List.not_mem_nil r))

/-- C9: the planner is deterministic in its inputs and the fetched pages — two
invocations with identical inputs against request factories that serve
identical responses yield identical plans. -/
theorem generate_steps_deterministic :
    ∀ (ε : Type) (mk1 mk2 : Option String → Except ε (Page RawInstance))
      (fuel : Nat) (project : String) (version : VersionKey)
      (cutoff : Timestamp),
      (∀ t, mk1 t = mk2 t) →
      generate_steps mk1 fuel project version cutoff =
        generate_steps mk2 fuel project version cutoff := by
  intro ε mk1 mk2 fuel project version cutoff h
  rw [show mk1 = mk2 from funext h]

theorem generate_steps_deterministic_witness :
    generate_steps vmRequest 2 "my_project" myVersion
        ⟨2020, 6, 1, 0, 0, 0, 0⟩ =
      generate_steps vmRequest 2 "my_project" myVersion
        ⟨2020, 6, 1, 0, 0, 0, 0⟩ :=
  generate_steps_deterministic String vmRequest vmRequest 2 "my_project"
    myVersion ⟨2020, 6, 1, 0, 0, 0, 0⟩ (fun _ => rfl)

/-- C10: `RestartCommand` equality is structural — two commands built by
`kill_nomulus_instance` are equal exactly when their project ids, version
keys and instance names are equal, and `VersionKey` equality is likewise
componentwise. -/
theorem restart_command_value_equality :
    ∀ (p1 p2 : String) (v1 v2 : VersionKey) (i1 i2 : String),
      (kill_nomulus_instance p1 v1 i1 = kill_nomulus_instance p2 v2 i2 ↔
        p1 = p2 ∧ v1 = v2 ∧ i1 = i2) ∧
      ∀ (s1 s2 vv1 vv2 : String),
        VersionKey.mk s1 vv1 = VersionKey.mk s2 vv2 ↔ s1 = s2 ∧ vv1 = vv2 := by
  intro p1 p2 v1 v2 i1 i2
  constructor
  · simp [kill_nomulus_instance, RestartCommand.mk.injEq]
  · intro s1 s2 vv1 vv2
    simp [VersionKey.mk.injEq]

theorem restart_command_value_equality_witness :
    kill_nomulus_instance "my_project" myVersion "my_inst" =
      kill_nomulus_instance "my_project" ⟨"my_service", "my_version"⟩
        "my_inst" :=
  ((restart_command_value_equality "my_project" "my_project" myVersion
    ⟨"my_service", "my_version"⟩ "my_inst" "my_inst").1).mpr
    ⟨rfl, by decide, rfl⟩
